import Mathlib

/-!
Shallow embedding of the attempt-aggregation and outcome-reduction core of
`playwright-ci-reporter` (`src/index.ts`, class `CustomReporterConfig`).

The reporter records, per test title, the ordered list of execution attempts
(`onTestEnd`), and at run end (`onEnd`) reduces the records to a `RunSummary`
(counts, retries, failure entries, duration statistics) plus a process exit
code.  Numbers are modelled as rationals, the insertion-ordered `Map` as an
association list, the crash on an undefined array element as `Except.error`.
-/

set_option autoImplicit false

deriving instance DecidableEq for Except

namespace PlaywrightReporter

/-- Status union of the Playwright runner, the type `TestResult.status`. -/
inductive Status where
  | passed
  | failed
  | timedOut
  | skipped
  | interrupted
deriving DecidableEq, Repr

/-- Return type of the Playwright `TestCase.outcome()` call, which the reporter invokes
in `onEnd`.  It is supplied by the external runner, not computed by this code. -/
inductive Outcome where
  | expected
  | unexpected
  | flaky
  | skipped
deriving DecidableEq, Repr

/-- The slice of the Playwright `TestCase` object the reporter reads: `test.title` and
the value its `test.outcome()` call returns. -/
structure TestCase where
  title : String
  outcome : Outcome
deriving DecidableEq, Repr

/-- One element of `TestResult.errors`: `message` and `stack` are both optional
in the Playwright `TestError` type. -/
structure TestError where
  message : Option String
  stack : Option String
deriving DecidableEq, Repr

/-- The slice of the Playwright `TestResult` object the reporter reads in `onTestEnd`:
status, duration in milliseconds, errors, and the retry index (used only for
logging). -/
structure TestResult where
  status : Status
  duration : ℚ
  errors : List TestError
  retry : ℕ
deriving DecidableEq, Repr

/-- Stored per-attempt record, `AttemptInfo` from `src/index.ts`
(duration already converted to seconds, error messages already defaulted). -/
structure ErrorInfo where
  message : String
  stack : Option String
deriving DecidableEq, Repr

structure AttemptInfo where
  status : Status
  duration : ℚ
  errors : List ErrorInfo
deriving DecidableEq, Repr

/-- Per-test record, `TestRecord` from `src/index.ts`: the first-observed `TestCase` object plus
the ordered attempt list. -/
structure TestRecord where
  test : TestCase
  attempts : List AttemptInfo
deriving DecidableEq, Repr

/-- JavaScript `o || d` on an optional string: the default replaces both a
missing value and the (falsy) empty string. -/
def jsOrElse (o : Option String) (d : String) : String :=
  match o with
  | none => d
  | some s => if s = "" then d else s

/-- The attempt object pushed by `onTestEnd`:
`{status, duration: result.duration / 1000, errors: result.errors.map(...)}`
with the message defaulted when absent or empty. -/
def mkAttempt (result : TestResult) : AttemptInfo :=
  { status := result.status
    duration := result.duration / 1000
    errors := result.errors.map (fun e =>
      { message := jsOrElse e.message "No error message", stack := e.stack }) }

/-- The reporter field `this.testRecords : Map<string, TestRecord>` — an insertion-ordered map,
modelled as an association list in insertion order. -/
abbrev Store := List (String × TestRecord)

/-- Lookup in the store (first entry with the given title). -/
def getRecord? (s : Store) (title : String) : Option TestRecord :=
  (s.find? (fun p => decide (p.1 = title))).map Prod.snd

/-- Translation of `onTestEnd(test, result)` from `src/index.ts`: create the record for
`test.title` if absent (storing the incoming `TestCase` object), then push the
attempt built from `result`.  The attempt is appended unconditionally;
`result.retry` is never consulted for storage. -/
def recordAttempt (s : Store) (test : TestCase) (result : TestResult) : Store :=
  let title := test.title
  let s1 := if s.any (fun p => decide (p.1 = title)) then s
            else s ++ [(title, { test := test, attempts := [] })]
  s1.map (fun p =>
    if p.1 = title then
      (p.1, { test := p.2.test, attempts := p.2.attempts ++ [mkAttempt result] })
    else p)

/-- JavaScript `hay.includes(needle)`: case-sensitive substring test. -/
def includesSub (hay needle : String) : Bool :=
  decide (needle.data <:+: hay.data)

/-- A failure entry of the summary. -/
structure Failure where
  title : String
  message : String
  stack : String
  timeTaken : ℚ
  isTimeout : Bool
deriving DecidableEq, Repr

/-- The failure entry `onEnd` pushes for a failed test, built from the final
attempt only. -/
def mkFailure (title : String) (fin : AttemptInfo) : Failure :=
  { title := title
    message := String.intercalate "\n" (fin.errors.map (fun e => e.message))
    stack := String.intercalate "\n" (fin.errors.map (fun e => e.stack.getD ""))
    timeTaken := fin.duration
    isTimeout := fin.errors.any (fun e => includesSub e.message "timeout") }

/-- The mutable accumulators of the `onEnd` loop. -/
structure Acc where
  testCount : ℕ
  passedCount : ℕ
  failedCount : ℕ
  skippedCount : ℕ
  totalRetries : ℕ
  failures : List Failure
  passedDurations : List ℚ
deriving DecidableEq, Repr

def initAcc : Acc := ⟨0, 0, 0, 0, 0, [], []⟩

/-- One iteration of the `onEnd` loop over `this.testRecords.values()`.
`finalAttempt = attempts[attempts.length - 1]` is `undefined` when the attempt
list is empty; it is dereferenced only in the `unexpected` branch, where that
dereference throws (modelled as `Except.error`). -/
def stepRecord (acc : Acc) (rec : TestRecord) : Except String Acc :=
  let attempts := rec.attempts
  let testRetries := if attempts.length > 1 then attempts.length - 1 else 0
  let acc1 := { acc with
    testCount := acc.testCount + 1
    totalRetries := acc.totalRetries + testRetries }
  match rec.test.outcome with
  | Outcome.expected | Outcome.flaky =>
      Except.ok { acc1 with
        passedCount := acc1.passedCount + 1
        passedDurations := acc1.passedDurations ++
          ((attempts.filter (fun a => decide (a.status = Status.passed))).map
            (fun a => a.duration)) }
  | Outcome.unexpected =>
      match attempts.getLast? with
      | none => Except.error "TypeError: cannot read properties of undefined (reading duration)"
      | some fin =>
          Except.ok { acc1 with
            failedCount := acc1.failedCount + 1
            failures := acc1.failures ++ [mkFailure rec.test.title fin] }
  | Outcome.skipped =>
      Except.ok { acc1 with skippedCount := acc1.skippedCount + 1 }

/-- The `for (const {test, attempts} of this.testRecords.values())` loop. -/
def reduceLoop (acc : Acc) : List TestRecord → Except String Acc
  | [] => Except.ok acc
  | r :: rs =>
      match stepRecord acc r with
      | Except.error e => Except.error e
      | Except.ok acc1 => reduceLoop acc1 rs

/-- Evaluation of `Math.max(...l)` for the non-empty case (the caller guards emptiness). -/
def maxOfList : List ℚ → ℚ
  | [] => 0
  | x :: xs => xs.foldl max x

/-- The summary object passed to `writeJsonSummary` — the bit-exact external
artifact. -/
structure RunSummary where
  startTime : ℚ
  endTime : ℚ
  totalTimeSeconds : ℚ
  totalTests : ℕ
  passed : ℕ
  failed : ℕ
  skipped : ℕ
  failures : List Failure
  averageTestDurationSeconds : ℚ
  slowestTestDurationSeconds : ℚ
  totalRetries : ℕ
  environmentUrl : String
deriving DecidableEq, Repr

/-- Translation of `onEnd()` from `src/index.ts`, with the ambient inputs made explicit:
`startT`/`endT` are the `Date.now()` bracket, `env` is `this.environmentUrl`.
Returns the written summary together with the `process.exit` code, or an
error when the loop crashes.  (Both branches of the final `if` write the same
summary: when `failures` is empty the reporter passes the literal `[]`.) -/
def onEnd (s : Store) (startT endT : ℚ) (env : String) : Except String (RunSummary × ℕ) :=
  let totalTime := (endT - startT) / 1000
  match reduceLoop initAcc (s.map Prod.snd) with
  | Except.error e => Except.error e
  | Except.ok acc =>
      let averageTime :=
        if acc.passedDurations.length > 0 then
          acc.passedDurations.sum / (acc.passedDurations.length : ℚ)
        else 0
      let slowestTest :=
        if acc.passedDurations.length > 0 then maxOfList acc.passedDurations else 0
      let summary : RunSummary :=
        { startTime := startT
          endTime := endT
          totalTimeSeconds := totalTime
          totalTests := acc.testCount
          passed := acc.passedCount
          failed := acc.failedCount
          skipped := acc.skippedCount
          failures := acc.failures
          averageTestDurationSeconds := averageTime
          slowestTestDurationSeconds := slowestTest
          totalRetries := acc.totalRetries
          environmentUrl := env }
      let exitCode := if acc.failures.length > 0 then 1 else 0
      Except.ok (summary, exitCode)

/-- Quote list `FAILURE_QUOTES` from `src/index.ts`. -/
def FAILURE_QUOTES : List String :=
  ["\u201CHouston, we have a problem.\u201D - Apollo 13",
   "\u201CFailure is not an option.\u201D - Apollo 13",
   "\u201CWhy so serious?\u201D - The Dark Knight",
   "\u201CI find your lack of passing disturbing.\u201D - Darth Vader",
   "\u201CIt\u0027s not a bug, it\u0027s a feature!\u201D - Every developer ever",
   "Oh, crap, it failed! But it worked on my machine!",
   "Tests won\u0027t fail if you have no tests!",
   "PLEASE LET ME MERGE BEFORE I START CRYING!",
   "\u201CYou can\u2019t handle the truth!\u201D - A Few Good Men"]

/-- Quote list `SUCCESS_QUOTES` from `src/index.ts`. -/
def SUCCESS_QUOTES : List String :=
  ["\u201CHasta la vista, baby.\u201D - The Terminator",
   "\u201CAll systems go!\u201D - NASA",
   "\u201CThat\u2019s one small step for man, one giant leap for\u2026 tests!\u201D - Apollo 11",
   "\u201CVictory is ours!\u201D - Braveheart",
   "\u201CI\u0027m king of the world!\u201D - Titanic",
   "\u201CYou\u2019re a wizard, Harry!\u201D - Harry Potter",
   "\u201CLive long and prosper.\u201D - Star Trek"]

/-- Translation of `getRandomQuote(quotes)` picking `quotes[Math.floor(Math.random() * quotes.length)]`,
with the random draw modelled as an arbitrary natural number reduced into range. -/
def getRandomQuote (quotes : List String) (r : ℕ) : String :=
  quotes.getD (r % quotes.length) ""

/-- Run of `onEnd` together with its only random-dependent observable, the quote
printed to the console.  The summary and exit code do not depend on `r`. -/
def onEndWithQuote (s : Store) (startT endT : ℚ) (env : String) (r : ℕ) :
    Except String (String × RunSummary × ℕ) :=
  match onEnd s startT endT env with
  | Except.error e => Except.error e
  | Except.ok (summary, code) =>
      let quote :=
        if summary.failures.length > 0 then getRandomQuote FAILURE_QUOTES r
        else getRandomQuote SUCCESS_QUOTES r
      Except.ok (quote, summary, code)

/-- The four final-outcome values of the specification. -/
inductive FinalOutcome where
  | expectedPass
  | flakyPass
  | failure
  | skippedFinal
deriving DecidableEq, Repr

/-- Modelled from the spec (§4.2 per-test reduction): the final outcome as a
function of the recorded attempt sequence alone, the last element
authoritative; `none` on an empty sequence.  This is the reference against
which the classification in the code (which instead calls the external
`test.outcome()`) is compared. -/
def specFinalOutcome (attempts : List AttemptInfo) : Option FinalOutcome :=
  match attempts.getLast? with
  | none => none
  | some last =>
      if last.status = Status.skipped then some FinalOutcome.skippedFinal
      else if last.status = Status.passed then
        if attempts.length = 1 then some FinalOutcome.expectedPass
        else some FinalOutcome.flakyPass
      else some FinalOutcome.failure

/-! ### Statement-level vocabulary -/

/-- The record is classified into the passed bucket
(the test `finalOutcome === expected || finalOutcome === flaky`). -/
def passedB (r : TestRecord) : Bool :=
  decide (r.test.outcome = Outcome.expected ∨ r.test.outcome = Outcome.flaky)

/-- The record is classified into the failed bucket (outcome `unexpected`). -/
def failedB (r : TestRecord) : Bool :=
  decide (r.test.outcome = Outcome.unexpected)

/-- The record is classified into the skipped bucket. -/
def skippedB (r : TestRecord) : Bool :=
  decide (r.test.outcome = Outcome.skipped)

/-- The failure entry a record contributes, when any: one per failed-bucket
record, built from its last attempt. -/
def failEntry? (r : TestRecord) : Option Failure :=
  if r.test.outcome = Outcome.unexpected then
    (r.attempts.getLast?).map (mkFailure r.test.title)
  else none

/-- The passed-attempt durations a record contributes to the statistics pool:
only passed-bucket records contribute, and then all their attempts whose own
status is `passed`. -/
def passedDur (r : TestRecord) : List ℚ :=
  if passedB r then
    (r.attempts.filter (fun a => decide (a.status = Status.passed))).map
      (fun a => a.duration)
  else []

/-- The run can be reduced without crashing: no failed-bucket record has an
empty attempt list. -/
def noEmptyFailed (rs : List TestRecord) : Prop :=
  ∀ r ∈ rs, r.test.outcome = Outcome.unexpected → r.attempts ≠ []

/-! ### Reduction loop characterisation -/

lemma getLast?_some_of_ne_nil {α : Type} {l : List α} (h : l ≠ []) :
    ∃ a, l.getLast? = some a := by
  cases l with
  | nil => exact absurd rfl h
  | cons x xs => exact ⟨(x :: xs).getLast (by simp), List.getLast?_eq_getLast _ _⟩

lemma retries_if (n : ℕ) : (if n > 1 then n - 1 else 0) = n - 1 := by
  split <;> omega

/-- Closed form of the `onEnd` accumulation loop on a crash-free record list. -/
lemma reduceLoop_ok (rs : List TestRecord) :
    ∀ acc : Acc, noEmptyFailed rs →
    reduceLoop acc rs = Except.ok
      { testCount := acc.testCount + rs.length
        passedCount := acc.passedCount + (rs.filter passedB).length
        failedCount := acc.failedCount + (rs.filter failedB).length
        skippedCount := acc.skippedCount + (rs.filter skippedB).length
        totalRetries := acc.totalRetries + (rs.map (fun r => r.attempts.length - 1)).sum
        failures := acc.failures ++ rs.filterMap failEntry?
        passedDurations := acc.passedDurations ++ rs.flatMap passedDur } := by
  induction rs with
  | nil => intro acc _; simp [reduceLoop]
  | cons r rs ih =>
    intro acc h
    have hrs : noEmptyFailed rs := fun x hx ho => h x (List.mem_cons_of_mem _ hx) ho
    cases hout : r.test.outcome with
    | expected =>
        simp only [reduceLoop, stepRecord, hout, retries_if]
        rw [ih _ hrs]
        simp [passedB, failedB, skippedB, failEntry?, passedDur, hout, List.filter_cons,
          List.filterMap_cons]
        omega
    | flaky =>
        simp only [reduceLoop, stepRecord, hout, retries_if]
        rw [ih _ hrs]
        simp [passedB, failedB, skippedB, failEntry?, passedDur, hout, List.filter_cons,
          List.filterMap_cons]
        omega
    | unexpected =>
        obtain ⟨fin, hfin⟩ :=
          getLast?_some_of_ne_nil (h r (List.mem_cons_self _ _) hout)
        simp only [reduceLoop, stepRecord, hout, hfin, retries_if]
        rw [ih _ hrs]
        simp [passedB, failedB, skippedB, failEntry?, passedDur, hout, hfin,
          List.filter_cons, List.filterMap_cons]
        omega
    | skipped =>
        simp only [reduceLoop, stepRecord, hout, retries_if]
        rw [ih _ hrs]
        simp [passedB, failedB, skippedB, failEntry?, passedDur, hout, List.filter_cons,
          List.filterMap_cons]
        omega

/-- The crash message of the reduction loop. -/
def crashMsg : String :=
  "TypeError: cannot read properties of undefined (reading duration)"

/-- The loop crashes as soon as a failed-bucket record with an empty attempt
list is reached. -/
lemma reduceLoop_error (rs : List TestRecord) :
    ∀ acc : Acc,
    (∃ r ∈ rs, r.test.outcome = Outcome.unexpected ∧ r.attempts = []) →
    reduceLoop acc rs = Except.error crashMsg := by
  induction rs with
  | nil => intro acc h; simp at h
  | cons r rs ih =>
    intro acc h
    by_cases hr : r.test.outcome = Outcome.unexpected ∧ r.attempts = []
    · obtain ⟨h1, h2⟩ := hr
      simp [reduceLoop, stepRecord, h1, h2, crashMsg]
    · have hex : ∃ x ∈ rs, x.test.outcome = Outcome.unexpected ∧ x.attempts = [] := by
        rcases h with ⟨x, hx, hxo⟩
        rcases List.mem_cons.mp hx with heq | hx'
        · exact absurd (heq ▸ hxo) hr
        · exact ⟨x, hx', hxo⟩
      cases hout : r.test.outcome with
      | expected =>
          simp only [reduceLoop, stepRecord, hout]
          exact ih _ hex
      | flaky =>
          simp only [reduceLoop, stepRecord, hout]
          exact ih _ hex
      | unexpected =>
          have hne : r.attempts ≠ [] := fun hnil => hr ⟨hout, hnil⟩
          obtain ⟨fin, hfin⟩ := getLast?_some_of_ne_nil hne
          simp only [reduceLoop, stepRecord, hout, hfin]
          exact ih _ hex
      | skipped =>
          simp only [reduceLoop, stepRecord, hout]
          exact ih _ hex

/-- Closed form of `onEnd` on a crash-free store. -/
lemma onEnd_eq (s : Store) (startT endT : ℚ) (env : String)
    (h : noEmptyFailed (s.map Prod.snd)) :
    onEnd s startT endT env = Except.ok (
      { startTime := startT
        endTime := endT
        totalTimeSeconds := (endT - startT) / 1000
        totalTests := (s.map Prod.snd).length
        passed := ((s.map Prod.snd).filter passedB).length
        failed := ((s.map Prod.snd).filter failedB).length
        skipped := ((s.map Prod.snd).filter skippedB).length
        failures := (s.map Prod.snd).filterMap failEntry?
        averageTestDurationSeconds :=
          if ((s.map Prod.snd).flatMap passedDur).length > 0 then
            ((s.map Prod.snd).flatMap passedDur).sum /
              (((s.map Prod.snd).flatMap passedDur).length : ℚ)
          else 0
        slowestTestDurationSeconds :=
          if ((s.map Prod.snd).flatMap passedDur).length > 0 then
            maxOfList ((s.map Prod.snd).flatMap passedDur)
          else 0
        totalRetries := ((s.map Prod.snd).map (fun r => r.attempts.length - 1)).sum
        environmentUrl := env },
      if ((s.map Prod.snd).filterMap failEntry?).length > 0 then 1 else 0) := by
  unfold onEnd
  rw [reduceLoop_ok _ initAcc h]
  simp [initAcc]

/-- A successful `onEnd` implies the store was crash-free. -/
lemma noEmptyFailed_of_onEnd_ok (s : Store) (startT endT : ℚ) (env : String)
    (x : RunSummary × ℕ) (h : onEnd s startT endT env = Except.ok x) :
    noEmptyFailed (s.map Prod.snd) := by
  by_contra hn
  unfold noEmptyFailed at hn
  push_neg at hn
  obtain ⟨r, hr, ho, hnil⟩ := hn
  have herr := reduceLoop_error (s.map Prod.snd) initAcc ⟨r, hr, ho, hnil⟩
  unfold onEnd at h
  rw [herr] at h
  simp at h

/-- On a crash-free list every failed-bucket record yields exactly one entry. -/
lemma length_filterMap_failEntry (rs : List TestRecord) (h : noEmptyFailed rs) :
    (rs.filterMap failEntry?).length = (rs.filter failedB).length := by
  induction rs with
  | nil => simp
  | cons r rs ih =>
    have hrs : noEmptyFailed rs := fun x hx ho => h x (List.mem_cons_of_mem _ hx) ho
    by_cases ho : r.test.outcome = Outcome.unexpected
    · obtain ⟨fin, hfin⟩ :=
        getLast?_some_of_ne_nil (h r (List.mem_cons_self _ _) ho)
      simp [failEntry?, failedB, ho, hfin, List.filterMap_cons, List.filter_cons, ih hrs]
    · simp [failEntry?, failedB, ho, List.filterMap_cons, List.filter_cons, ih hrs]

/-- The failure entries carry the failed-bucket titles, in store order. -/
lemma titles_filterMap_failEntry (rs : List TestRecord) (h : noEmptyFailed rs) :
    (rs.filterMap failEntry?).map (fun f => f.title)
      = (rs.filter failedB).map (fun r => r.test.title) := by
  induction rs with
  | nil => simp
  | cons r rs ih =>
    have hrs : noEmptyFailed rs := fun x hx ho => h x (List.mem_cons_of_mem _ hx) ho
    by_cases ho : r.test.outcome = Outcome.unexpected
    · obtain ⟨fin, hfin⟩ :=
        getLast?_some_of_ne_nil (h r (List.mem_cons_self _ _) ho)
      simp [failEntry?, failedB, ho, hfin, List.filterMap_cons, List.filter_cons, ih hrs,
        mkFailure]
    · simp [failEntry?, failedB, ho, List.filterMap_cons, List.filter_cons, ih hrs]

/-- Every record falls in exactly one of the three buckets. -/
lemma bucket_partition_length (rs : List TestRecord) :
    rs.length = (rs.filter passedB).length + (rs.filter failedB).length
      + (rs.filter skippedB).length := by
  induction rs with
  | nil => simp
  | cons r rs ih =>
    cases ho : r.test.outcome <;>
      simp [passedB, failedB, skippedB, ho, List.filter_cons, ih] <;> omega

/-- Only passed-bucket records feed the duration pool. -/
lemma flatMap_passedDur (rs : List TestRecord) :
    rs.flatMap passedDur = (rs.filter passedB).flatMap (fun r =>
      (r.attempts.filter (fun a => decide (a.status = Status.passed))).map
        (fun a => a.duration)) := by
  induction rs with
  | nil => simp
  | cons r rs ih =>
    by_cases hp : passedB r = true
    · simp [List.flatMap_cons, List.filter_cons, hp, passedDur, ih]
    · simp [List.flatMap_cons, List.filter_cons, hp, passedDur, ih]

lemma le_foldl_max (xs : List ℚ) (a : ℚ) : a ≤ xs.foldl max a := by
  induction xs generalizing a with
  | nil => simp
  | cons x xs ih => exact le_trans (le_max_left a x) (ih (max a x))

lemma mem_le_foldl_max (xs : List ℚ) (a x : ℚ) (hx : x ∈ xs) :
    x ≤ xs.foldl max a := by
  induction xs generalizing a with
  | nil => simp at hx
  | cons y ys ih =>
    rcases List.mem_cons.mp hx with rfl | hx'
    · exact le_trans (le_max_right a x) (le_foldl_max ys (max a x))
    · exact ih (max a y) hx'

lemma foldl_max_choice (xs : List ℚ) (a : ℚ) :
    xs.foldl max a = a ∨ xs.foldl max a ∈ xs := by
  induction xs generalizing a with
  | nil => simp
  | cons x xs ih =>
    rcases ih (max a x) with h | h
    · rcases max_choice a x with hm | hm
      · left; rw [List.foldl_cons, h, hm]
      · right; rw [List.foldl_cons, h, hm]; exact List.mem_cons_self _ _
    · right; exact List.mem_cons_of_mem _ h

/-- Evaluating `Math.max` over a non-empty list yields an element of the list. -/
lemma maxOfList_mem (l : List ℚ) (h : l ≠ []) : maxOfList l ∈ l := by
  cases l with
  | nil => exact absurd rfl h
  | cons x xs =>
    rcases foldl_max_choice xs x with hc | hc
    · rw [maxOfList, hc]; exact List.mem_cons_self _ _
    · rw [maxOfList]; exact List.mem_cons_of_mem _ hc

/-- Evaluating `Math.max` over a list bounds every element. -/
lemma le_maxOfList (l : List ℚ) (x : ℚ) (hx : x ∈ l) : x ≤ maxOfList l := by
  cases l with
  | nil => simp at hx
  | cons y ys =>
    rcases List.mem_cons.mp hx with rfl | hx'
    · exact le_foldl_max ys x
    · exact mem_le_foldl_max ys y x hx'

/-! ### Store update characterisation -/

lemma find?_map_update (s : Store) (title : String) (g : TestRecord → TestRecord) :
    ((s.map (fun p => if p.1 = title then (p.1, g p.2) else p)).find?
        (fun p => decide (p.1 = title)))
      = (s.find? (fun p => decide (p.1 = title))).map (fun p => (p.1, g p.2)) := by
  induction s with
  | nil => simp
  | cons p s ih =>
    by_cases hp : p.1 = title
    · simp [List.find?_cons, hp]
    · simp [List.find?_cons, hp, ih]

/-- C7: `onTestEnd` never signals an ordering error; it appends the incoming
attempt at the end of the record for that title — the position (arrival order) is
the index of the attempt — and the incoming `retry` index has no influence on the store. -/
theorem recordAttempt_arrival_order (s : Store) (t : TestCase) (r : TestResult) (k : ℕ) :
    (getRecord? (recordAttempt s t r) t.title).map (fun rec => rec.attempts)
      = some ((((getRecord? s t.title).map (fun rec => rec.attempts)).getD [])
          ++ [mkAttempt r]) ∧
    recordAttempt s t { r with retry := k } = recordAttempt s t r := by
  refine ⟨?_, rfl⟩
  simp only [recordAttempt, getRecord?]
  by_cases hin : s.any (fun p => decide (p.1 = t.title)) = true
  · rw [if_pos hin,
      find?_map_update s t.title
        (fun rec => { test := rec.test, attempts := rec.attempts ++ [mkAttempt r] })]
    have hsome : (s.find? (fun p => decide (p.1 = t.title))).isSome := by
      rw [List.find?_isSome]
      obtain ⟨p, hp, hpt⟩ := List.any_eq_true.mp hin
      exact ⟨p, hp, hpt⟩
    obtain ⟨q, hq⟩ := Option.isSome_iff_exists.mp hsome
    rw [hq]
    simp
  · have hnone : s.find? (fun p => decide (p.1 = t.title)) = none := by
      rw [List.find?_eq_none]
      intro p hp
      by_contra hc
      exact hin (List.any_eq_true.mpr ⟨p, hp, by simpa using hc⟩)
    rw [if_neg hin, List.map_append, List.find?_append,
      find?_map_update s t.title
        (fun rec => { test := rec.test, attempts := rec.attempts ++ [mkAttempt r] }),
      hnone]
    simp

/-- Inversion: a successful `onEnd` determines every summary field and the
exit code from the store. -/
lemma onEnd_ok_inv (s : Store) (startT endT : ℚ) (env : String)
    (sum : RunSummary) (ec : ℕ)
    (h : onEnd s startT endT env = Except.ok (sum, ec)) :
    noEmptyFailed (s.map Prod.snd) ∧
    sum.totalTests = (s.map Prod.snd).length ∧
    sum.passed = ((s.map Prod.snd).filter passedB).length ∧
    sum.failed = ((s.map Prod.snd).filter failedB).length ∧
    sum.skipped = ((s.map Prod.snd).filter skippedB).length ∧
    sum.failures = (s.map Prod.snd).filterMap failEntry? ∧
    sum.totalRetries = ((s.map Prod.snd).map (fun r => r.attempts.length - 1)).sum ∧
    sum.averageTestDurationSeconds =
      (if ((s.map Prod.snd).flatMap passedDur).length > 0 then
        ((s.map Prod.snd).flatMap passedDur).sum /
          (((s.map Prod.snd).flatMap passedDur).length : ℚ)
      else 0) ∧
    sum.slowestTestDurationSeconds =
      (if ((s.map Prod.snd).flatMap passedDur).length > 0 then
        maxOfList ((s.map Prod.snd).flatMap passedDur)
      else 0) ∧
    ec = (if ((s.map Prod.snd).filterMap failEntry?).length > 0 then 1 else 0) := by
  have hnef := noEmptyFailed_of_onEnd_ok s startT endT env (sum, ec) h
  rw [onEnd_eq s startT endT env hnef] at h
  simp only [Except.ok.injEq, Prod.mk.injEq] at h
  obtain ⟨hsum, hec⟩ := h
  subst hsum
  subst hec
  exact ⟨hnef, rfl, rfl, rfl, rfl, rfl, rfl, rfl, rfl, rfl⟩

/-! ### Claim theorems -/

/-- C8: the reduction is a deterministic pure function of the closed store and
the run bracket.  All varying inputs of `onEnd` are explicit parameters; the
only remaining nondeterminism, the `Math.random()` quote draw, provably never
influences the produced summary or the exit code, so two invocations on the
same closed store with the same bracket yield bit-identical `RunSummary`
values. -/
theorem summary_independent_of_quote_draw (s : Store) (startT endT : ℚ)
    (env : String) (r1 r2 : ℕ) :
    (onEndWithQuote s startT endT env r1).map (fun x => x.2)
      = (onEndWithQuote s startT endT env r2).map (fun x => x.2) := by
  unfold onEndWithQuote
  cases h : onEnd s startT endT env with
  | error e => rfl
  | ok v => cases v; simp [Except.map]

/-- C4 (amended): the reduction aborts — and no `RunSummary` is produced —
exactly when some zero-attempt record is classified failed (`unexpected`), in
which case it crashes reading the undefined final attempt; a zero-attempt
record in any other bucket is silently counted and a summary is still
produced, contrary to the claimed unconditional fail-fast `InvariantViolation`. -/
theorem reduction_crash_iff_empty_failed_record (s : Store) (startT endT : ℚ)
    (env : String) :
    onEnd s startT endT env = Except.error crashMsg ↔
      ∃ r ∈ s.map Prod.snd, r.test.outcome = Outcome.unexpected ∧ r.attempts = [] := by
  constructor
  · intro h
    by_contra hn
    push_neg at hn
    have hnef : noEmptyFailed (s.map Prod.snd) := by
      intro r hr ho hnil
      exact hn r hr ho hnil
    rw [onEnd_eq s startT endT env hnef] at h
    simp at h
  · intro hex
    have herr := reduceLoop_error (s.map Prod.snd) initAcc hex
    unfold onEnd
    rw [herr]

/-- Concrete input refuting the unconditional fail-fast claim: one record with
zero attempts, classified `expected` by the external outcome call. -/
def c4Store : Store :=
  [("t", { test := { title := "t", outcome := Outcome.expected }, attempts := [] })]

def c4Summary : RunSummary :=
  { startTime := 0
    endTime := 0
    totalTimeSeconds := 0
    totalTests := 1
    passed := 1
    failed := 0
    skipped := 0
    failures := []
    averageTestDurationSeconds := 0
    slowestTestDurationSeconds := 0
    totalRetries := 0
    environmentUrl := "" }

/-- C4 counterexample: a zero-attempt record does not abort the reduction —
the run is summarised (the empty record silently counted as passed) and exit
code 0 is produced, with no error of any kind. -/
theorem empty_record_reduces_silently_cex :
    onEnd c4Store 0 0 "" = Except.ok (c4Summary, 0) := by
  norm_num +decide [onEnd, reduceLoop, stepRecord, initAcc, maxOfList, c4Store, c4Summary]

/-- The recorded attempt sequence of the C1 failing input: a single failed
attempt. -/
def c1Attempts : List AttemptInfo :=
  [{ status := Status.failed, duration := 1, errors := [] }]

/-- The C1 failing input: the recorded attempts end in `failed`, but the
external `test.outcome()` call reports `expected` (as Playwright does e.g. for
a test annotated as expected-to-fail). -/
def c1Store : Store :=
  [("t", { test := { title := "t", outcome := Outcome.expected }, attempts := c1Attempts })]

def c1Summary : RunSummary :=
  { startTime := 0
    endTime := 0
    totalTimeSeconds := 0
    totalTests := 1
    passed := 1
    failed := 0
    skipped := 0
    failures := []
    averageTestDurationSeconds := 0
    slowestTestDurationSeconds := 0
    totalRetries := 0
    environmentUrl := "" }

/-- C1: the classification in the code is not a function of the recorded attempt
sequence with the last element authoritative — it follows the external
`test.outcome()` value instead.  On a record whose attempts end in `failed`
but whose `test.outcome()` is `expected`, `onEnd` counts the test as passed
with no failure entry and exit code 0, while the last-attempt rule in the
spec derives `failure` from the same recorded attempts. -/
theorem classification_follows_external_outcome_call :
    onEnd c1Store 0 0 "" = Except.ok (c1Summary, 0) ∧
    specFinalOutcome c1Attempts = some FinalOutcome.failure := by
  constructor
  · norm_num +decide [onEnd, reduceLoop, stepRecord, initAcc, maxOfList, c1Store,
      c1Attempts, c1Summary]
  · rfl

/-- The passed-attempt durations the code actually pools: only from
passed-bucket records. -/
def passedPool (s : Store) : List ℚ :=
  ((s.map Prod.snd).filter passedB).flatMap (fun r =>
    (r.attempts.filter (fun a => decide (a.status = Status.passed))).map
      (fun a => a.duration))

/-- The C2 failing input: a test whose single attempt passed (duration 2 s)
but whose final outcome is `unexpected`, so the test lands in the failed
bucket. -/
def c2Store : Store :=
  [("t", { test := { title := "t", outcome := Outcome.unexpected },
           attempts := [{ status := Status.passed, duration := 2, errors := [] }] })]

/-- The passed-attempt durations of `c2Store` across all tests, regardless of
final outcome — what the claim says feeds the statistics. -/
def c2AllPassedDurations : List ℚ :=
  (c2Store.map Prod.snd).flatMap (fun r =>
    (r.attempts.filter (fun a => decide (a.status = Status.passed))).map
      (fun a => a.duration))

def c2Summary : RunSummary :=
  { startTime := 0
    endTime := 0
    totalTimeSeconds := 0
    totalTests := 1
    passed := 0
    failed := 1
    skipped := 0
    failures := [{ title := "t", message := "", stack := "", timeTaken := 2, isTimeout := false }]
    averageTestDurationSeconds := 0
    slowestTestDurationSeconds := 0
    totalRetries := 0
    environmentUrl := "" }

/-- C2 counterexample: the passed attempt of a failed-bucket test is excluded
from the duration pool.  The passed-attempt durations of the store across all tests
are `[2]`, whose mean and maximum are 2, yet the summary reports average 0 and
slowest 0. -/
theorem duration_pool_excludes_failed_test_cex :
    onEnd c2Store 0 0 "" = Except.ok (c2Summary, 1) ∧
    c2AllPassedDurations = [2] ∧
    c2Summary.averageTestDurationSeconds ≠
      c2AllPassedDurations.sum / (c2AllPassedDurations.length : ℚ) ∧
    c2Summary.slowestTestDurationSeconds ≠ maxOfList c2AllPassedDurations := by
  refine ⟨?_, ?_, ?_, ?_⟩
  · norm_num +decide [onEnd, reduceLoop, stepRecord, initAcc, maxOfList, mkFailure,
      includesSub, c2Store, c2Summary]
  · norm_num +decide [c2Store, c2AllPassedDurations]
  · norm_num +decide [c2Store, c2AllPassedDurations, c2Summary]
  · norm_num +decide [c2Store, c2AllPassedDurations, c2Summary, maxOfList]

/-- C2 (amended): `averageTestDurationSeconds` is the arithmetic mean and
`slowestTestDurationSeconds` the maximum (both 0 on an empty pool) of the
durations of passed attempts of the *passed-bucket* tests only (final outcome
`expected` or `flaky`, including passing attempts after a retry); passing
attempts of failed- or skipped-bucket tests are excluded. -/
theorem duration_stats_from_passed_bucket (s : Store) (startT endT : ℚ)
    (env : String) (sum : RunSummary) (ec : ℕ)
    (h : onEnd s startT endT env = Except.ok (sum, ec)) :
    sum.averageTestDurationSeconds =
      (if passedPool s = [] then 0 else (passedPool s).sum / ((passedPool s).length : ℚ)) ∧
    sum.slowestTestDurationSeconds =
      (if passedPool s = [] then 0 else maxOfList (passedPool s)) ∧
    (passedPool s ≠ [] →
      sum.slowestTestDurationSeconds ∈ passedPool s ∧
      ∀ x ∈ passedPool s, x ≤ sum.slowestTestDurationSeconds) := by
  obtain ⟨-, -, -, -, -, -, -, havg, hslow, -⟩ := onEnd_ok_inv s startT endT env sum ec h
  have hpool : (s.map Prod.snd).flatMap passedDur = passedPool s := by
    simp only [passedPool]
    exact flatMap_passedDur _
  rw [hpool] at havg hslow
  by_cases hD : passedPool s = []
  · rw [havg, hslow]
    simp [hD]
  · have hlen : (passedPool s).length > 0 := by
      cases hp : passedPool s with
      | nil => exact absurd hp hD
      | cons a l => simp
    rw [havg, hslow]
    rw [if_pos hlen, if_pos hlen, if_neg hD, if_neg hD]
    refine ⟨rfl, rfl, fun _ => ⟨maxOfList_mem _ hD, fun x hx => le_maxOfList _ x hx⟩⟩

/-- C3: for every failed-bucket test, the summary carries exactly one failure
entry, every field of which derives from the *last* attempt of the record: the
message is the newline-join of its error messages in order, the stack the
newline-join of its stacks (a missing stack as empty text), `timeTaken` its
duration, and `isTimeout` holds exactly when some error message of that last
attempt contains the case-sensitive substring "timeout". -/
theorem failure_entries_from_last_attempt (s : Store) (startT endT : ℚ)
    (env : String) (sum : RunSummary) (ec : ℕ)
    (h : onEnd s startT endT env = Except.ok (sum, ec)) :
    sum.failures = (s.map Prod.snd).filterMap (fun r =>
      if r.test.outcome = Outcome.unexpected then
        (r.attempts.getLast?).map (fun fin =>
          { title := r.test.title
            message := String.intercalate "\n" (fin.errors.map (fun e => e.message))
            stack := String.intercalate "\n" (fin.errors.map (fun e => e.stack.getD ""))
            timeTaken := fin.duration
            isTimeout := fin.errors.any (fun e => includesSub e.message "timeout") })
      else none) := by
  obtain ⟨-, -, -, -, -, hfail, -, -, -, -⟩ := onEnd_ok_inv s startT endT env sum ec h
  rw [hfail]
  rfl

/-- C5: the process exit status is 0 exactly when the failed count of the summary
is 0, and 1 otherwise. -/
theorem exit_code_zero_iff_no_failed (s : Store) (startT endT : ℚ)
    (env : String) (sum : RunSummary) (ec : ℕ)
    (h : onEnd s startT endT env = Except.ok (sum, ec)) :
    ec = if sum.failed = 0 then 0 else 1 := by
  obtain ⟨hnef, -, -, hfailed, -, -, -, -, -, hec⟩ := onEnd_ok_inv s startT endT env sum ec h
  rw [hec, hfailed, length_filterMap_failEntry _ hnef]
  rcases Nat.eq_zero_or_pos ((s.map Prod.snd).filter failedB).length with h0 | h0
  · simp [h0]
  · rw [if_pos h0, if_neg (by omega)]

/-- C6: `totalRetries` is the sum over all records of attempts-beyond-the-
first (0 for a single-attempt test), regardless of the bucket of each test. -/
theorem total_retries_eq_sum (s : Store) (startT endT : ℚ)
    (env : String) (sum : RunSummary) (ec : ℕ)
    (h : onEnd s startT endT env = Except.ok (sum, ec)) :
    sum.totalRetries = ((s.map Prod.snd).map (fun r => r.attempts.length - 1)).sum := by
  obtain ⟨-, -, -, -, -, -, hret, -, -, -⟩ := onEnd_ok_inv s startT endT env sum ec h
  exact hret

/-- C9: records are keyed solely by the test title.  Two `onTestEnd` calls
whose `TestCase` arguments share a title — even two distinct logical tests —
append to one and the same record (which keeps the first-observed `TestCase`
object), and the pair contributes 1, not 2, to `totalTests`. -/
theorem same_title_merges_records (t1 t2 : TestCase) (r1 r2 : TestResult)
    (h : t1.title = t2.title) :
    recordAttempt (recordAttempt [] t1 r1) t2 r2
      = [(t1.title, { test := t1, attempts := [mkAttempt r1, mkAttempt r2] })] ∧
    (∀ (startT endT : ℚ) (env : String) (sum : RunSummary) (ec : ℕ),
      onEnd (recordAttempt (recordAttempt [] t1 r1) t2 r2) startT endT env
        = Except.ok (sum, ec) → sum.totalTests = 1) := by
  have hstep1 : recordAttempt [] t1 r1
      = [(t1.title, { test := t1, attempts := [mkAttempt r1] })] := by
    simp [recordAttempt]
  have hstep2 :
      recordAttempt [(t1.title, { test := t1, attempts := [mkAttempt r1] })] t2 r2
        = [(t1.title, { test := t1, attempts := [mkAttempt r1, mkAttempt r2] })] := by
    simp [recordAttempt, ← h]
  constructor
  · rw [hstep1, hstep2]
  · intro startT endT env sum ec hok
    rw [hstep1, hstep2] at hok
    obtain ⟨-, htot, -⟩ := onEnd_ok_inv _ _ _ _ _ _ hok
    simpa using htot

/-- C10: each record lands in exactly one bucket, so the counts add up to the
total, and the failures list has exactly one entry per failed-bucket test, in
first-observed store order. -/
theorem buckets_partition_and_failures_count (s : Store) (startT endT : ℚ)
    (env : String) (sum : RunSummary) (ec : ℕ)
    (h : onEnd s startT endT env = Except.ok (sum, ec)) :
    sum.totalTests = sum.passed + sum.failed + sum.skipped ∧
    sum.failures.length = sum.failed ∧
    sum.failures.map (fun f => f.title)
      = ((s.map Prod.snd).filter failedB).map (fun r => r.test.title) := by
  obtain ⟨hnef, htot, hp, hf, hsk, hfails, -⟩ := onEnd_ok_inv s startT endT env sum ec h
  refine ⟨?_, ?_, ?_⟩
  · rw [htot, hp, hf, hsk]
    exact bucket_partition_length _
  · rw [hfails, hf]
    exact length_filterMap_failEntry _ hnef
  · rw [hfails]
    exact titles_filterMap_failEntry _ hnef

/-! ### Concrete witnesses -/

def c3Store : Store :=
  [("t3", { test := { title := "t3", outcome := Outcome.unexpected },
            attempts :=
              [{ status := Status.failed, duration := 1,
                 errors := [{ message := "first", stack := some "s1" }] },
               { status := Status.timedOut, duration := 2,
                 errors := [{ message := "timeout hit", stack := none }] }] })]

def c3Summary : RunSummary :=
  { startTime := 0
    endTime := 0
    totalTimeSeconds := 0
    totalTests := 1
    passed := 0
    failed := 1
    skipped := 0
    failures := [{ title := "t3", message := "timeout hit", stack := "",
                   timeTaken := 2, isTimeout := true }]
    averageTestDurationSeconds := 0
    slowestTestDurationSeconds := 0
    totalRetries := 1
    environmentUrl := "" }

theorem failure_entries_from_last_attempt_witness :
    onEnd c3Store 0 0 "" = Except.ok (c3Summary, 1) ∧
    c3Summary.failures = (c3Store.map Prod.snd).filterMap (fun r =>
      if r.test.outcome = Outcome.unexpected then
        (r.attempts.getLast?).map (fun fin =>
          { title := r.test.title
            message := String.intercalate "\n" (fin.errors.map (fun e => e.message))
            stack := String.intercalate "\n" (fin.errors.map (fun e => e.stack.getD ""))
            timeTaken := fin.duration
            isTimeout := fin.errors.any (fun e => includesSub e.message "timeout") })
      else none) := by
  have h : onEnd c3Store 0 0 "" = Except.ok (c3Summary, 1) := by
    norm_num +decide [onEnd, reduceLoop, stepRecord, initAcc, maxOfList, mkFailure,
      includesSub, c3Store, c3Summary]
  exact ⟨h, failure_entries_from_last_attempt c3Store 0 0 "" c3Summary 1 h⟩

def c5Store : Store :=
  [("f", { test := { title := "f", outcome := Outcome.unexpected },
           attempts := [{ status := Status.failed, duration := 1,
                          errors := [{ message := "boom", stack := none }] }] })]

def c5Summary : RunSummary :=
  { startTime := 0
    endTime := 0
    totalTimeSeconds := 0
    totalTests := 1
    passed := 0
    failed := 1
    skipped := 0
    failures := [{ title := "f", message := "boom", stack := "",
                   timeTaken := 1, isTimeout := false }]
    averageTestDurationSeconds := 0
    slowestTestDurationSeconds := 0
    totalRetries := 0
    environmentUrl := "" }

theorem exit_code_zero_iff_no_failed_witness :
    onEnd c5Store 0 0 "" = Except.ok (c5Summary, 1) ∧
    (1 : ℕ) = if c5Summary.failed = 0 then 0 else 1 := by
  have h : onEnd c5Store 0 0 "" = Except.ok (c5Summary, 1) := by
    norm_num +decide [onEnd, reduceLoop, stepRecord, initAcc, maxOfList, mkFailure,
      includesSub, c5Store, c5Summary]
  exact ⟨h, exit_code_zero_iff_no_failed c5Store 0 0 "" c5Summary 1 h⟩

def c6Store : Store :=
  [("fl", { test := { title := "fl", outcome := Outcome.flaky },
            attempts := [{ status := Status.failed, duration := 1, errors := [] },
                         { status := Status.failed, duration := 1, errors := [] },
                         { status := Status.passed, duration := 1, errors := [] }] }),
   ("ok", { test := { title := "ok", outcome := Outcome.expected },
            attempts := [{ status := Status.passed, duration := 2, errors := [] }] })]

def c6Summary : RunSummary :=
  { startTime := 0
    endTime := 0
    totalTimeSeconds := 0
    totalTests := 2
    passed := 2
    failed := 0
    skipped := 0
    failures := []
    averageTestDurationSeconds := 3/2
    slowestTestDurationSeconds := 2
    totalRetries := 2
    environmentUrl := "" }

theorem total_retries_eq_sum_witness :
    onEnd c6Store 0 0 "" = Except.ok (c6Summary, 0) ∧
    c6Summary.totalRetries
      = ((c6Store.map Prod.snd).map (fun r => r.attempts.length - 1)).sum := by
  have h : onEnd c6Store 0 0 "" = Except.ok (c6Summary, 0) := by
    norm_num +decide [onEnd, reduceLoop, stepRecord, initAcc, maxOfList, c6Store, c6Summary]
  exact ⟨h, total_retries_eq_sum c6Store 0 0 "" c6Summary 0 h⟩

def c9t1 : TestCase := { title := "dup", outcome := Outcome.expected }
def c9t2 : TestCase := { title := "dup", outcome := Outcome.unexpected }
def c9r1 : TestResult := { status := Status.passed, duration := 1000, errors := [], retry := 0 }
def c9r2 : TestResult := { status := Status.failed, duration := 2000, errors := [], retry := 0 }

theorem same_title_merges_records_witness :
    c9t1.title = c9t2.title ∧
    recordAttempt (recordAttempt [] c9t1 c9r1) c9t2 c9r2
      = [(c9t1.title, { test := c9t1, attempts := [mkAttempt c9r1, mkAttempt c9r2] })] := by
  have h : c9t1.title = c9t2.title := rfl
  exact ⟨h, (same_title_merges_records c9t1 c9t2 c9r1 c9r2 h).1⟩

def c10Store : Store :=
  [("a", { test := { title := "a", outcome := Outcome.expected },
           attempts := [{ status := Status.passed, duration := 3, errors := [] }] }),
   ("b", { test := { title := "b", outcome := Outcome.unexpected },
           attempts := [{ status := Status.failed, duration := 1,
                          errors := [{ message := "err", stack := none }] }] }),
   ("c", { test := { title := "c", outcome := Outcome.skipped },
           attempts := [{ status := Status.skipped, duration := 0, errors := [] }] })]

def c10Summary : RunSummary :=
  { startTime := 0
    endTime := 0
    totalTimeSeconds := 0
    totalTests := 3
    passed := 1
    failed := 1
    skipped := 1
    failures := [{ title := "b", message := "err", stack := "",
                   timeTaken := 1, isTimeout := false }]
    averageTestDurationSeconds := 3
    slowestTestDurationSeconds := 3
    totalRetries := 0
    environmentUrl := "" }

theorem buckets_partition_and_failures_count_witness :
    onEnd c10Store 0 0 "" = Except.ok (c10Summary, 1) ∧
    (c10Summary.totalTests = c10Summary.passed + c10Summary.failed + c10Summary.skipped ∧
     c10Summary.failures.length = c10Summary.failed ∧
     c10Summary.failures.map (fun f => f.title)
       = ((c10Store.map Prod.snd).filter failedB).map (fun r => r.test.title)) := by
  have h : onEnd c10Store 0 0 "" = Except.ok (c10Summary, 1) := by
    norm_num +decide [onEnd, reduceLoop, stepRecord, initAcc, maxOfList, mkFailure,
      includesSub, c10Store, c10Summary]
  exact ⟨h, buckets_partition_and_failures_count c10Store 0 0 "" c10Summary 1 h⟩

def c2wStore : Store :=
  [("fl", { test := { title := "fl", outcome := Outcome.flaky },
            attempts := [{ status := Status.failed, duration := 1,
                           errors := [{ message := "e", stack := none }] },
                         { status := Status.passed, duration := 3, errors := [] }] })]

def c2wSummary : RunSummary :=
  { startTime := 0
    endTime := 0
    totalTimeSeconds := 0
    totalTests := 1
    passed := 1
    failed := 0
    skipped := 0
    failures := []
    averageTestDurationSeconds := 3
    slowestTestDurationSeconds := 3
    totalRetries := 1
    environmentUrl := "" }

theorem duration_stats_from_passed_bucket_witness :
    onEnd c2wStore 0 0 "" = Except.ok (c2wSummary, 0) ∧
    (c2wSummary.averageTestDurationSeconds =
       (if passedPool c2wStore = [] then 0
        else (passedPool c2wStore).sum / ((passedPool c2wStore).length : ℚ)) ∧
     c2wSummary.slowestTestDurationSeconds =
       (if passedPool c2wStore = [] then 0 else maxOfList (passedPool c2wStore)) ∧
     (passedPool c2wStore ≠ [] →
       c2wSummary.slowestTestDurationSeconds ∈ passedPool c2wStore ∧
       ∀ x ∈ passedPool c2wStore, x ≤ c2wSummary.slowestTestDurationSeconds)) := by
  have h : onEnd c2wStore 0 0 "" = Except.ok (c2wSummary, 0) := by
    norm_num +decide [onEnd, reduceLoop, stepRecord, initAcc, maxOfList, c2wStore, c2wSummary]
  exact ⟨h, duration_stats_from_passed_bucket c2wStore 0 0 "" c2wSummary 0 h⟩

end PlaywrightReporter
